import Mathlib

/-!
Verification of the guideline-refresher pipeline
(src/skills/guideline-refresher/refresh_guidelines.py).

The Python program is shallowly embedded: each analysis phase and each
rendering function becomes an executable Lean definition over `String`,
`List` and integer types.  Python `str.lower`, `str.replace`, substring
tests (`kw in text`), `pathlib` suffix/stem handling and `Counter`
accumulation are modelled by the character-level functions below.
Markdown documents are modelled as their list of lines (the program
itself identifies sections by the line-anchored pattern `^## (.+)$`,
so the line list is the canonical structure); the flat text is the
lines interleaved with newline characters.
-/

/-- Boolean test: `n` is a prefix of `h` (model of `str.startswith` and
the basis of Python's substring operator). -/
def prefixOfB : List Char → List Char → Bool
  | [], _ => true
  | _ :: _, [] => false
  | a :: as, b :: bs => a == b && prefixOfB as bs

/-- Boolean substring test on character lists: `containsSubL n h` is true
iff `n` occurs contiguously inside `h` (model of Python's `n in h`). -/
def containsSubL : List Char → List Char → Bool
  | n, [] => prefixOfB n []
  | n, c :: rest => prefixOfB n (c :: rest) || containsSubL n rest

/-- Python `needle in hay` for strings. -/
def strContains (hay needle : String) : Bool :=
  containsSubL needle.data hay.data

theorem prefixOfB_iff (n : List Char) : ∀ h : List Char,
    prefixOfB n h = true ↔ ∃ t, h = n ++ t := by
  induction n with
  | nil =>
    intro h
    simp [prefixOfB]
  | cons a as ih =>
    intro h
    cases h with
    | nil => simp [prefixOfB]
    | cons b bs =>
      simp only [prefixOfB, Bool.and_eq_true, beq_iff_eq, ih bs]
      constructor
      · rintro ⟨rfl, t, rfl⟩
        exact ⟨t, rfl⟩
      · rintro ⟨t, h⟩
        cases h
        exact ⟨rfl, t, rfl⟩

theorem containsSubL_iff (n : List Char) : ∀ h : List Char,
    containsSubL n h = true ↔ ∃ u v, h = u ++ n ++ v := by
  intro h
  induction h with
  | nil =>
    simp only [containsSubL, prefixOfB_iff]
    constructor
    · rintro ⟨t, ht⟩
      exact ⟨[], t, by simpa using ht⟩
    · rintro ⟨u, v, huv⟩
      have hu : u = [] := by
        cases u with
        | nil => rfl
        | cons x xs => simp at huv
      subst hu
      exact ⟨v, by simpa using huv⟩
  | cons c rest ih =>
    simp only [containsSubL, Bool.or_eq_true, prefixOfB_iff, ih]
    constructor
    · rintro (⟨t, ht⟩ | ⟨u, v, huv⟩)
      · exact ⟨[], t, by simpa using ht⟩
      · exact ⟨c :: u, v, by simp [huv]⟩
    · rintro ⟨u, v, huv⟩
      cases u with
      | nil => exact Or.inl ⟨v, by simpa using huv⟩
      | cons x xs =>
        simp only [List.cons_append, List.cons.injEq] at huv
        exact Or.inr ⟨xs, v, by simp [huv.1, huv.2]⟩

/-- Substring occurrence is transitive. -/
theorem containsSubL_trans {a b c : List Char}
    (h1 : containsSubL a b = true) (h2 : containsSubL b c = true) :
    containsSubL a c = true := by
  rw [containsSubL_iff] at h1 h2 ⊢
  obtain ⟨u, v, rfl⟩ := h1
  obtain ⟨s, t, rfl⟩ := h2
  exact ⟨s ++ u, v ++ t, by simp⟩

/-- Python `str.lower` (ASCII model, as used on commit messages,
review bodies and file stems). -/
def pyLower (s : String) : String := ⟨s.data.map Char.toLower⟩

/-- Python `str.replace(needle, repl)` on character lists: replaces all
non-overlapping occurrences left to right (needle assumed nonempty,
as at every call site in the program). -/
def replaceAllL (nd rp : List Char) : List Char → List Char
  | [] => []
  | c :: rest =>
    if prefixOfB nd (c :: rest) then
      rp ++ replaceAllL nd rp (List.drop (nd.length - 1) rest)
    else
      c :: replaceAllL nd rp rest
  termination_by l => l.length
  decreasing_by
    · simp only [List.length_cons]
      have := List.length_drop (nd.length - 1) rest
      omega
    · simp

/-- Python `str.replace` on strings. -/
def pyReplace (s needle repl : String) : String :=
  ⟨replaceAllL needle.data repl.data s.data⟩

/-- Single-character replacement is a character map. -/
theorem replaceAllL_single (c d : Char) : ∀ l : List Char,
    replaceAllL [c] [d] l = l.map (fun x => if x = c then d else x) := by
  intro l
  induction l with
  | nil => simp [replaceAllL]
  | cons x xs ih =>
    by_cases hx : x = c
    · subst hx
      rw [replaceAllL]
      simp [prefixOfB, ih]
    · rw [replaceAllL]
      have : prefixOfB [c] (x :: xs) = false := by
        simp [prefixOfB]
        intro h
        exact absurd h.symm hx
      simp [this, ih, hx]

/- ### C7: guidelines file path derivation
Model of `load_current_guidelines` (lines 279-288) and `save_guidelines`
(lines 514-521).  `pathJoin` models `pathlib`'s `/` operator. -/

/-- `pathlib` path join. -/
def pathJoin (a b : String) : String := a ++ "/" ++ b

/-- Line 282 / line 520: `self.area.replace('/', '_').replace('\\', '_')`. -/
def normalizeArea (area : String) : String :=
  pyReplace (pyReplace area "/" "_") "\\" "_"

/-- Lines 282-283: path the previous guidelines are loaded from. -/
def loadGuidelinesPath (repoRoot area : String) : String :=
  pathJoin repoRoot (".claude/guidelines/" ++ normalizeArea area ++ ".md")

/-- Lines 516-521: path the new guidelines are saved to
(`repo_root / ".claude/guidelines"` then `dir / f"{filename}.md"`). -/
def saveGuidelinesPath (repoRoot area : String) : String :=
  pathJoin (pathJoin repoRoot ".claude/guidelines") (normalizeArea area ++ ".md")

theorem data_append (a b : String) : (a ++ b).data = a.data ++ b.data := rfl

theorem normalizeArea_eq_map (area : String) :
    (normalizeArea area).data =
      area.data.map (fun x =>
        if (if x = '/' then '_' else x) = '\\' then '_'
        else (if x = '/' then '_' else x)) := by
  show (pyReplace (pyReplace area "/" "_") "\\" "_").data = _
  unfold pyReplace
  simp only [replaceAllL_single]
  show (String.mk _).data.map _ = _
  simp [List.map_map, Function.comp]

/-- **C7.** The guidelines file path is a pure function of the area name:
load (lines 282-283) and save (lines 519-521) resolve to the same path
under `.claude/guidelines`, and the normalized area name contains no
`/` or `\` separator. -/
theorem guidelines_path_pure_function (repoRoot area : String) :
    loadGuidelinesPath repoRoot area = saveGuidelinesPath repoRoot area
    ∧ loadGuidelinesPath repoRoot area =
        repoRoot ++ "/.claude/guidelines/" ++ normalizeArea area ++ ".md"
    ∧ (∀ ch ∈ (normalizeArea area).data, ch ≠ '/' ∧ ch ≠ '\\') := by
  refine ⟨?_, ?_, ?_⟩
  · show String.mk _ = String.mk _
    simp [pathJoin, loadGuidelinesPath, saveGuidelinesPath, data_append,
      String.append, List.append_assoc]
  · show String.mk _ = String.mk _
    simp [pathJoin, loadGuidelinesPath, String.append, List.append_assoc]
  · intro ch hch
    rw [normalizeArea_eq_map] at hch
    obtain ⟨x, _, hx⟩ := List.mem_map.mp hch
    constructor
    · intro h
      subst h
      by_cases h1 : x = '/' <;> by_cases h2 : (if x = '/' then '_' else x) = '\\' <;>
        simp [h1, h2] at hx <;> simp_all
    · intro h
      subst h
      by_cases h1 : x = '/' <;> by_cases h2 : (if x = '/' then '_' else x) = '\\' <;>
        simp [h1, h2] at hx <;> simp_all

/-- Witness for C7 at a concrete area containing both separators. -/
theorem guidelines_path_pure_function_witness :
    loadGuidelinesPath "/repo" "frontend/comp\\x" =
      saveGuidelinesPath "/repo" "frontend/comp\\x"
    ∧ ('_' ∈ (normalizeArea "frontend/comp\\x").data →
        '_' ≠ '/' ∧ '_' ≠ '\\') := by
  exact ⟨(guidelines_path_pure_function "/repo" "frontend/comp\\x").1,
    (guidelines_path_pure_function "/repo" "frontend/comp\\x").2.2 '_'⟩

/- ### Decimal rendering of numbers (Python f-string `{n}`) -/

/-- Decimal digit character for `m < 10`. -/
def digitCh (m : Nat) : Char := Char.ofNat (48 + m)

def natDigitsAux : Nat → List Char → List Char
  | 0, acc => acc
  | n + 1, acc => natDigitsAux ((n + 1) / 10) (digitCh ((n + 1) % 10) :: acc)
  termination_by n _ => n
  decreasing_by
    exact Nat.lt_of_lt_of_le (Nat.div_lt_self (Nat.succ_pos n) (by omega))
      (Nat.le_refl _)

/-- Decimal rendering of a natural number. -/
def natStr (n : Nat) : String :=
  if n = 0 then "0" else ⟨natDigitsAux n []⟩

/-- Decimal rendering of an integer (Python `{int}`). -/
def intStr (i : Int) : String :=
  if i < 0 then "-" ++ natStr i.natAbs else natStr i.toNat

theorem natDigitsAux_head : ∀ n : Nat, 0 < n → ∀ acc : List Char,
    ∃ d rest, natDigitsAux n acc = d :: rest ∧ d.isDigit = true := by
  intro n
  induction n using Nat.strong_induction_on with
  | _ n ih =>
    intro hn acc
    match n, hn with
    | m + 1, _ =>
      rw [natDigitsAux]
      by_cases h10 : (m + 1) / 10 = 0
      · rw [h10]
        refine ⟨digitCh ((m + 1) % 10), acc, by simp [natDigitsAux], ?_⟩
        have hlt : (m + 1) % 10 < 10 := Nat.mod_lt _ (by omega)
        interval_cases h : (m + 1) % 10 <;> decide
      · exact ih ((m + 1) / 10)
          (Nat.div_lt_self (Nat.succ_pos m) (by omega))
          (Nat.pos_of_ne_zero h10) _

/-- The decimal rendering of a natural number starts with a digit. -/
theorem natStr_head_digit (n : Nat) :
    ∃ d rest, (natStr n).data = d :: rest ∧ d.isDigit = true := by
  unfold natStr
  by_cases h : n = 0
  · exact ⟨'0', [], by simp [h], by decide⟩
  · simp only [h, if_false]
    obtain ⟨d, rest, hd, hdig⟩ := natDigitsAux_head n (Nat.pos_of_ne_zero h) []
    exact ⟨d, rest, hd, hdig⟩

/- ### `pathlib` suffix and stem (used at lines 241, 255-256) -/

/-- Index of the last `.` in a list, if any. -/
def lastDotIdx (l : List Char) : Option Nat :=
  match l.reverse.findIdx? (fun c => c = '.') with
  | none => none
  | some r => some (l.length - 1 - r)

/-- `pathlib.PurePath.suffix`: the extension from the last dot, provided
the dot is neither the first nor the last character of the name. -/
def pySuffix (name : String) : String :=
  match lastDotIdx name.data with
  | none => ""
  | some i =>
    if 0 < i ∧ i < name.data.length - 1 then ⟨name.data.drop i⟩ else ""

/-- `pathlib.PurePath.stem`: the name with its suffix removed. -/
def pyStem (name : String) : String :=
  match lastDotIdx name.data with
  | none => name
  | some i =>
    if 0 < i ∧ i < name.data.length - 1 then ⟨name.data.take i⟩ else name

/- ### C3: naming-convention classification (lines 251-272) -/

inductive Bucket where
  | pascal
  | snake
  | kebab
  | camel
  | mixed
  deriving DecidableEq, Repr

/-- Dictionary key used for each bucket in `naming_patterns`. -/
def bucketName : Bucket → String
  | .pascal => "PascalCase"
  | .snake => "snake_case"
  | .kebab => "kebab-case"
  | .camel => "camelCase"
  | .mixed => "mixed"

/-- Python `str.islower`: at least one cased character and no upper-case
character (ASCII model). -/
def pyIsLowerL (l : List Char) : Bool :=
  l.any (fun c => c.isAlpha) && l.all (fun c => !c.isUpper)

/-- The four guard conditions of lines 263-270, on a nonempty name
`hd :: tl`. -/
def cond1 (hd : Char) (tl : List Char) : Bool :=
  hd.isUpper && !((hd :: tl).contains '_') && !((hd :: tl).contains '-')
def cond2 (hd : Char) (tl : List Char) : Bool :=
  (hd :: tl).contains '_' && pyIsLowerL (hd :: tl)
def cond3 (hd : Char) (tl : List Char) : Bool :=
  (hd :: tl).contains '-' && pyIsLowerL (hd :: tl)
def cond4 (hd : Char) (tl : List Char) : Bool :=
  hd.isLower && !((hd :: tl).contains '_') && !((hd :: tl).contains '-')

/-- The `if/elif/else` chain of lines 263-272 on a nonempty name. -/
def classifyTotal (hd : Char) (tl : List Char) : Bucket :=
  if cond1 hd tl then .pascal
  else if cond2 hd tl then .snake
  else if cond3 hd tl then .kebab
  else if cond4 hd tl then .camel
  else .mixed

/-- Classification of a base name; `none` on the empty name (where the
Python code would raise an `IndexError` on `name[0]`; base names reaching
this code always carry a nonempty stem). -/
def classifyStem (s : String) : Option Bucket :=
  match s.data with
  | [] => none
  | hd :: tl => some (classifyTotal hd tl)

/-- The precedence relation the five rules define: a bucket is assigned
iff its guard holds and no earlier guard does (`mixed` iff no guard
holds). -/
def Assigns (hd : Char) (tl : List Char) : Bucket → Prop
  | .pascal => cond1 hd tl = true
  | .snake => cond1 hd tl = false ∧ cond2 hd tl = true
  | .kebab => cond1 hd tl = false ∧ cond2 hd tl = false ∧ cond3 hd tl = true
  | .camel => cond1 hd tl = false ∧ cond2 hd tl = false ∧
      cond3 hd tl = false ∧ cond4 hd tl = true
  | .mixed => cond1 hd tl = false ∧ cond2 hd tl = false ∧
      cond3 hd tl = false ∧ cond4 hd tl = false

/-- Line 259: base names skipped before classification. -/
def isIndexStem (s : String) : Bool :=
  pyLower s == "index" || pyLower s == "__init__"

theorem classifyTotal_assigns (hd : Char) (tl : List Char) :
    Assigns hd tl (classifyTotal hd tl) := by
  unfold classifyTotal
  by_cases h1 : cond1 hd tl <;> by_cases h2 : cond2 hd tl <;>
    by_cases h3 : cond3 hd tl <;> by_cases h4 : cond4 hd tl <;>
    simp_all [Assigns]

theorem assigns_unique (hd : Char) (tl : List Char) (b b' : Bucket)
    (hb : Assigns hd tl b) (hb' : Assigns hd tl b') : b = b' := by
  cases b <;> cases b' <;> simp_all [Assigns]

/- ### FileSurveyor model (`analyze_file_patterns`, lines 220-277)
A filesystem entry as produced by `area_path.rglob('*')`: its directory
components (`file_path.parts` without the final component, including the
repository-root components), its final name component, and whether it is
a regular file. -/

structure FsEntry where
  dirs : List String
  name : String
  isFile : Bool
  deriving DecidableEq, Repr

/-- `file_path.parts`. -/
def FsEntry.allParts (e : FsEntry) : List String := e.dirs ++ [e.name]

/-- Line 236: `any(part.startswith('.') for part in file_path.parts)`. -/
def isHiddenEntry (e : FsEntry) : Bool :=
  e.allParts.any (fun p => prefixOfB ".".data p.data)

/-- Lines 236-240: an entry is counted in `total_files` iff it survives
the hidden-component skip and is a regular file. -/
def countedInTotal (e : FsEntry) : Bool :=
  !isHiddenEntry e && e.isFile

/-- Line 246: the `total_files` metric. -/
def totalFilesOf (entries : List FsEntry) : Nat :=
  (entries.filter countedInTotal).length

/-- Nat-valued counter over string keys (`collections.Counter` /
`defaultdict(int)`): insertion order preserved, increment in place. -/
def ainc : List (String × Nat) → String → List (String × Nat)
  | [], k => [(k, 1)]
  | (k', v) :: rest, k =>
    if k' = k then (k', v + 1) :: rest else (k', v) :: ainc rest k

/-- Counter read with default 0. -/
def aget : List (String × Nat) → String → Nat
  | [], _ => 0
  | (k', v) :: rest, k => if k' = k then v else aget rest k

/-- Lines 231-243: the `file_types` counter (only non-hidden regular
files with a nonempty suffix are tallied). -/
def fileTypesTally (entries : List FsEntry) : List (String × Nat) :=
  entries.foldl (fun acc e =>
    if countedInTotal e && !(pySuffix e.name == "") then
      ainc acc (pySuffix e.name)
    else acc) []

/-- Line 251: `code_extensions`. -/
def code_extensions : List String :=
  [".ts", ".tsx", ".js", ".jsx", ".py", ".java", ".go", ".rs"]

/-- Lines 254-259: whether an entry enters the naming-convention tally.
Note: unlike lines 236-237, this second `rglob` loop applies no
hidden-component skip. -/
def namingCounted (e : FsEntry) : Bool :=
  code_extensions.contains (pySuffix e.name) && e.isFile
    && !isIndexStem (pyStem e.name)

/-- Lines 252-272: the `naming_patterns` tally. -/
def namingTally (entries : List FsEntry) : List (String × Nat) :=
  entries.foldl (fun acc e =>
    if namingCounted e then
      match classifyStem (pyStem e.name) with
      | some b => ainc acc (bucketName b)
      | none => acc
    else acc) []

/-- **C3.** The five naming rules, evaluated in the code's fixed
precedence, assign exactly one bucket to every nonempty base name
(mutual exclusivity and exhaustiveness of the precedence relation,
computed by `classifyTotal`); the six spec examples classify as stated,
and `index`/`__init__` base names (case-insensitively) are excluded
from the tally entirely. -/
theorem naming_rules_exclusive_exhaustive (hd : Char) (tl : List Char) :
    (∃! b : Bucket, Assigns hd tl b)
    ∧ Assigns hd tl (classifyTotal hd tl)
    ∧ classifyStem "Button" = some .pascal
    ∧ classifyStem "my_file" = some .snake
    ∧ classifyStem "my-file" = some .kebab
    ∧ classifyStem "myFile" = some .camel
    ∧ classifyStem "My_File" = some .mixed
    ∧ isIndexStem "index" = true
    ∧ isIndexStem "Index" = true
    ∧ isIndexStem "__init__" = true
    ∧ namingTally [⟨["r", "a"], "index.ts", true⟩,
        ⟨["r", "a"], "Index.tsx", true⟩,
        ⟨["r", "a"], "__init__.py", true⟩] = []
    ∧ namingTally [⟨["r", "a"], "Button.ts", true⟩,
        ⟨["r", "a"], "index.ts", true⟩] = [("PascalCase", 1)] := by
  refine ⟨⟨classifyTotal hd tl, classifyTotal_assigns hd tl,
    fun b hb => assigns_unique hd tl b _ hb (classifyTotal_assigns hd tl)⟩,
    classifyTotal_assigns hd tl, ?_, ?_, ?_, ?_, ?_, ?_, ?_, ?_, ?_, ?_⟩
  <;> decide

/- ### Metrics (`self.metrics = Counter()`, line 23)
An insertion-ordered association list of integer counters; reads default
to 0, assignment replaces in place, increment adds 1. -/

def Metrics := List (String × Int)

/-- Counter read with default 0. -/
def mget : List (String × Int) → String → Int
  | [], _ => 0
  | (k', v) :: rest, k => if k' = k then v else mget rest k

/-- Counter assignment (`self.metrics[k] = v`). -/
def mset : List (String × Int) → String → Int → List (String × Int)
  | [], k, v => [(k, v)]
  | (k', v') :: rest, k, v =>
    if k' = k then (k', v) :: rest else (k', v') :: mset rest k v

/-- Counter increment (`self.metrics[k] += 1`). -/
def minc (m : List (String × Int)) (k : String) : List (String × Int) :=
  mset m k (mget m k + 1)

theorem mget_mset (m : List (String × Int)) (k k' : String) (v : Int) :
    mget (mset m k v) k' = if k' = k then v else mget m k' := by
  induction m with
  | nil =>
    by_cases h : k = k'
    · subst h
      simp [mset, mget]
    · have h2 : ¬k' = k := fun hh => h hh.symm
      simp [mset, mget, h, h2]
  | cons p rest ih =>
    obtain ⟨pk, pv⟩ := p
    by_cases hpk : pk = k
    · subst hpk
      simp only [mset, if_pos rfl, mget]
      by_cases h : pk = k'
      · subst h
        simp
      · have h2 : ¬k' = pk := fun hh => h hh.symm
        simp [h, h2]
    · simp only [mset, if_neg hpk, mget, ih]
      by_cases h1 : pk = k' <;> by_cases h2 : k' = k
      · exact absurd (h1.trans h2) hpk
      · simp [h1, h2, hpk]
      · simp [h1, h2, hpk]
      · simp [h1, h2, hpk]

theorem mget_minc (m : List (String × Int)) (k k' : String) :
    mget (minc m k) k' = if k' = k then mget m k + 1 else mget m k' := by
  unfold minc
  rw [mget_mset]

/- ### HistoryAnalyzer (`analyze_git_history`, lines 74-130) -/

/-- Lines 113-120: the technology keyword table. -/
def tech_keywords : List (String × List String) :=
  [("typescript", ["typescript", "ts", ".tsx"]),
   ("react", ["react", "jsx", "hook", "component"]),
   ("vue", ["vue", "composition", "vue3"]),
   ("testing", ["test", "spec", "jest", "vitest", "cypress"]),
   ("async", ["async", "await", "promise"]),
   ("performance", ["performance", "optimize", "lazy", "memo"])]

/-- Keyword list of a technology category (empty for unknown names). -/
def keywordsOf (t : String) : List String :=
  match tech_keywords.find? (fun p => p.1 = t) with
  | some p => p.2
  | none => []

/-- Whether a message increments the counter of technology `t`
(line 123: any keyword is a substring of the lower-cased message). -/
def techHit (msg : String) (t : String) : Bool :=
  (keywordsOf t).any (fun kw => strContains (pyLower msg) kw)

/-- Lines 122-124: the per-message technology counter updates. -/
def techUpdate (m : List (String × Int)) (msg : String) : List (String × Int) :=
  tech_keywords.foldl (fun acc p =>
    if p.2.any (fun kw => strContains (pyLower msg) kw) then
      minc acc ("tech_" ++ p.1)
    else acc) m

/-- Line 106: the refactor keyword set. -/
def refactor_keywords : List String :=
  ["refactor", "improve", "update", "migrate", "modernize"]

/-- Line 102: strip the leading revision id from a `--oneline` entry. -/
def commitMessage (line : String) : String :=
  if line.data.contains ' ' then
    ⟨(line.data.dropWhile (fun c => c ≠ ' ')).drop 1⟩
  else line

/-- Lines 106-110: the refactor-commit record appended for a message
(the `type` field is the constant `"refactor"`). -/
def refactorRecord (msg : String) : Option (String × String) :=
  if refactor_keywords.any (fun kw => strContains (pyLower msg) kw) then
    some (msg, "refactor")
  else none

/-- Python `str.strip` (whitespace at both ends). -/
def pyStrip (s : String) : String :=
  ⟨(s.data.dropWhile Char.isWhitespace).reverse.dropWhile
    Char.isWhitespace |>.reverse⟩

/-- Python `str.split('\n')`. -/
def splitOnNl : List Char → List (List Char)
  | [] => [[]]
  | c :: rest =>
    match splitOnNl rest with
    | [] => [[]]
    | l :: ls => if c = '\n' then [] :: l :: ls else (c :: l) :: ls

def splitLines (s : String) : List String :=
  (splitOnNl s.data).map (fun l => ⟨l⟩)

/-- Line 96: `[line for line in result.stdout.strip().split('\n') if line]`. -/
def parseGitOut (stdout : String) : List String :=
  (splitLines (pyStrip stdout)).filter (fun l => l ≠ "")

/- ### ReviewAnalyzer (`analyze_pr_reviews`, lines 132-218) -/

/-- A merged change-request as returned by the review-hosting query
(`number` is unused by the analysis; `reviews` is the list of review
comment bodies, `files` the touched-file paths). -/
structure PR where
  title : String
  body : String
  reviews : List String
  files : List String
  deriving Repr

/-- Lines 191-200: the review theme keyword table. -/
def theme_patterns : List (String × List String) :=
  [("code_organization",
    ["structure", "organize", "directory", "folder", "separate", "split"]),
   ("type_safety", ["type", "typescript", "interface", "any", "unknown"]),
   ("testing",
    ["test", "coverage", "jest", "spec", "unit test", "integration test"]),
   ("performance", ["performance", "optimize", "slow", "cache", "memo", "lazy"]),
   ("error_handling", ["error", "exception", "catch", "try", "throw"]),
   ("naming", ["naming", "rename", "name is", "called", "variable name"]),
   ("documentation", ["document", "comment", "readme", "docs", "jsdoc"]),
   ("accessibility", ["accessibility", "a11y", "aria", "screen reader"])]

/-- Pattern list of a theme (empty for unknown names). -/
def patternsOf (t : String) : List String :=
  match theme_patterns.find? (fun p => p.1 = t) with
  | some p => p.2
  | none => []

/-- Whether a review body increments the counter of theme `t`
(line 203: any pattern is a substring of the lower-cased body). -/
def themeHit (body : String) (t : String) : Bool :=
  (patternsOf t).any (fun pat => strContains (pyLower body) pat)

/-- Per-theme sample store (`self.findings[f'{theme}_feedback']`):
association from theme to its retained samples. -/
def agetf : List (String × List String) → String → List String
  | [], _ => []
  | (k', l) :: rest, k => if k' = k then l else agetf rest k

/-- Append a sample to a theme's list (key added at the end on first use,
matching `defaultdict` insertion order). -/
def afeed : List (String × List String) → String → String →
    List (String × List String)
  | [], k, s => [(k, [s])]
  | (k', l) :: rest, k, s =>
    if k' = k then (k', l ++ [s]) :: rest else (k', l) :: afeed rest k s

/-- Python `s[:n]`. -/
def strTake (s : String) (n : Nat) : String := ⟨s.data.take n⟩

/- ### Stable descending sort
`sorted(..., key=lambda x: x[1], reverse=True)` and `Counter.most_common`
are stable descending sorts by count; modelled by insertion sort that
keeps earlier elements first among equal keys. -/

def insertByDesc [LinearOrder β] (key : α → β) (x : α) : List α → List α
  | [] => [x]
  | h :: t => if key h ≤ key x then x :: h :: t else h :: insertByDesc key x t

def sortByDesc [LinearOrder β] (key : α → β) (l : List α) : List α :=
  l.foldr (insertByDesc key) []

theorem insertByDesc_perm [LinearOrder β] (key : α → β) (x : α) (l : List α) :
    List.Perm (insertByDesc key x l) (x :: l) := by
  induction l with
  | nil => simp [insertByDesc]
  | cons h t ih =>
    unfold insertByDesc
    by_cases hle : key h ≤ key x
    · simp [hle]
    · simp only [if_neg hle]
      exact (ih.cons h).trans (List.Perm.swap x h t)

theorem sortByDesc_perm [LinearOrder β] (key : α → β) (l : List α) :
    List.Perm (sortByDesc key l) l := by
  induction l with
  | nil => simp [sortByDesc]
  | cons h t ih =>
    exact (insertByDesc_perm key h (sortByDesc key t)).trans (ih.cons h)

/- ### Pipeline state
The mutable analysis state of a run: the `Counter` of metrics plus the
`findings` dictionary, split by key.  `review_themes`, `file_types` and
`naming_conventions` are `Option`s because the renderer tests key
membership (`'x' in self.findings`) before reading them. -/

structure St where
  metrics : List (String × Int)
  refactor_commits : List (String × String)
  review_themes : Option (List (String × Nat))
  feedback : List (String × List String)
  file_types : Option (List (String × Nat))
  naming_conventions : Option (List (String × Nat))
  deriving Repr

/-- Lines 22-23: empty findings, empty counter. -/
def initSt : St := ⟨[], [], none, [], none, none⟩

/-- Lines 98-130: the git phase.  `stdout = none` models a failed
`git log` (warning printed, `total_commits` set to 0); otherwise the
per-commit refactor check and technology counting run in order. -/
def gitPhase (st : St) (stdout : Option String) : St :=
  match stdout with
  | none => { st with metrics := mset st.metrics "total_commits" 0 }
  | some out =>
    let commits := parseGitOut out
    let m0 := mset st.metrics "total_commits" (commits.length : Int)
    { st with
      metrics := commits.foldl (fun acc c => techUpdate acc (commitMessage c)) m0,
      refactor_commits := st.refactor_commits ++
        commits.filterMap (fun c => refactorRecord (commitMessage c)) }

/-- Lines 202-207: theme counting and sample retention for one review
body (`tf.1` is the run's `review_themes` counter, `tf.2` the feedback
sample store). -/
def themeStep (body : String) (tf : List (String × Nat) × List (String × List String)) :
    List (String × Nat) × List (String × List String) :=
  theme_patterns.foldl (fun acc tp =>
    if themeHit body tp.1 then
      (ainc acc.1 tp.1,
       if (agetf acc.2 tp.1).length < 5 then
         afeed acc.2 tp.1 (strTake body 300)
       else acc.2)
    else acc) tf

/-- Lines 132-218: the PR-review phase.  `inp = none` models the
review-hosting tool being unavailable or its query/parse failing: the
phase returns with the state untouched.  Otherwise PRs are filtered by
substring containment of the area in any touched-file path, the
`relevant_prs` metric is set, themes are counted over all non-empty
review bodies, and the 10 most frequent themes are stored. -/
def prPhase (st : St) (area : String) (inp : Option (List PR)) : St :=
  match inp with
  | none => st
  | some prs =>
    let relevant := prs.filter (fun pr =>
      pr.files.any (fun f => strContains f area))
    let tf := relevant.foldl (fun acc pr =>
      pr.reviews.foldl (fun acc2 body =>
        if body = "" then acc2 else themeStep body acc2) acc)
      (([] : List (String × Nat)), st.feedback)
    { st with
      metrics := mset st.metrics "relevant_prs" (relevant.length : Int),
      review_themes := some ((sortByDesc (fun p => p.2) tf.1).take 10),
      feedback := tf.2 }

/-- Lines 220-277: the file-survey phase.  `inp = none` models a missing
area path (warning printed, state untouched). -/
def filePhase (st : St) (inp : Option (List FsEntry)) : St :=
  match inp with
  | none => st
  | some entries =>
    let naming := namingTally entries
    { st with
      metrics := mset st.metrics "total_files" ((totalFilesOf entries : Nat) : Int),
      file_types := some ((sortByDesc (fun p => p.2) (fileTypesTally entries)).take 10),
      naming_conventions :=
        if naming = [] then st.naming_conventions else some naming }

/- ### C4: substring keyword matching -/

theorem techFold_mget (msg : String) :
    ∀ (l : List (String × List String)) (m : List (String × Int)) (k : String),
    mget (l.foldl (fun acc p =>
      if p.2.any (fun kw => strContains (pyLower msg) kw) then
        minc acc ("tech_" ++ p.1)
      else acc) m) k
    = mget m k +
      ((l.filter (fun p => ("tech_" ++ p.1 == k) &&
        p.2.any (fun kw => strContains (pyLower msg) kw))).length : Int) := by
  intro l
  induction l with
  | nil =>
    intro m k
    simp
  | cons q t ih =>
    intro m k
    simp only [List.foldl_cons, List.filter_cons]
    by_cases hc : q.2.any (fun kw => strContains (pyLower msg) kw) = true
    · rw [if_pos hc, ih, mget_minc]
      by_cases hk : "tech_" ++ q.1 = k
      · have hk2 : k = "tech_" ++ q.1 := hk.symm
        simp only [hc, Bool.and_true, hk, beq_self_eq_true, if_pos hk2]
        simp only [beq_iff_eq, hk, if_pos, List.length_cons]
        push_cast
        ring
      · have hk2 : ¬k = "tech_" ++ q.1 := fun hh => hk hh.symm
        have hbeq : ("tech_" ++ q.1 == k) = false := beq_false_of_ne hk
        simp [hc, hbeq, hk2]
    · have hc' : q.2.any (fun kw => strContains (pyLower msg) kw) = false :=
        Bool.eq_false_iff.mpr hc
      rw [if_neg (by simp [hc']), ih]
      simp [hc']

/-- **C4.** Technology and theme classification is case-insensitive
substring matching, never whole-word matching: a category counter is
incremented exactly when some keyword of the category occurs as a
contiguous substring of the lower-cased text; any message whose
lower-cased text contains `"typescripted"` increments the `typescript`
counter (lines 113-124); the same substring semantics governs the review
theme table (lines 191-204); and one text can increment several
categories. -/
theorem keyword_matching_is_substring (msg body : String)
    (m : List (String × Int)) :
    (∀ t, techHit msg t = true ↔
      ∃ kw ∈ keywordsOf t, ∃ u v, (pyLower msg).data = u ++ kw.data ++ v)
    ∧ (∀ t, themeHit body t = true ↔
      ∃ pat ∈ patternsOf t, ∃ u v, (pyLower body).data = u ++ pat.data ++ v)
    ∧ (∀ p ∈ tech_keywords,
      mget (techUpdate m msg) ("tech_" ++ p.1) =
        mget m ("tech_" ++ p.1) + (if techHit msg p.1 then 1 else 0))
    ∧ (strContains (pyLower msg) "typescripted" = true →
      mget (techUpdate m msg) "tech_typescript" = mget m "tech_typescript" + 1)
    ∧ techHit "Add TypeScript unit tests" "typescript" = true
    ∧ techHit "Add TypeScript unit tests" "testing" = true := by
  have hiff : ∀ t, techHit msg t = true ↔
      ∃ kw ∈ keywordsOf t, ∃ u v, (pyLower msg).data = u ++ kw.data ++ v := by
    intro t
    unfold techHit strContains
    rw [List.any_eq_true]
    constructor
    · rintro ⟨kw, hkw, hsub⟩
      exact ⟨kw, hkw, (containsSubL_iff kw.data (pyLower msg).data).mp hsub⟩
    · rintro ⟨kw, hkw, u, v, huv⟩
      exact ⟨kw, hkw, (containsSubL_iff kw.data (pyLower msg).data).mpr ⟨u, v, huv⟩⟩
  have hinc : ∀ p ∈ tech_keywords,
      mget (techUpdate m msg) ("tech_" ++ p.1) =
        mget m ("tech_" ++ p.1) + (if techHit msg p.1 then 1 else 0) := by
    intro p hp
    unfold techUpdate
    rw [techFold_mget]
    congr 1
    fin_cases hp <;>
      simp +decide [tech_keywords, List.filter_cons, List.filter_nil, techHit,
        keywordsOf, List.find?, Nat.cast_ite, Nat.cast_one, Nat.cast_zero]
    all_goals split <;> simp
  refine ⟨hiff, ?_, hinc, ?_, by decide, by decide⟩
  · intro t
    unfold themeHit strContains
    rw [List.any_eq_true]
    constructor
    · rintro ⟨pat, hpat, hsub⟩
      exact ⟨pat, hpat, (containsSubL_iff pat.data (pyLower body).data).mp hsub⟩
    · rintro ⟨pat, hpat, u, v, huv⟩
      exact ⟨pat, hpat,
        (containsSubL_iff pat.data (pyLower body).data).mpr ⟨u, v, huv⟩⟩
  · intro hsub
    have hts : strContains (pyLower msg) "typescript" = true := by
      unfold strContains at hsub ⊢
      exact containsSubL_trans (by decide) hsub
    have hhit : techHit msg "typescript" = true := by
      unfold techHit
      rw [List.any_eq_true]
      exact ⟨"typescript", by simp [keywordsOf, tech_keywords, List.find?], hts⟩
    have := hinc ("typescript", ["typescript", "ts", ".tsx"])
      (by simp [tech_keywords])
    simpa [hhit] using this

/-- Witness for C4 at a concrete message containing `typescripted`. -/
theorem keyword_matching_is_substring_witness :
    strContains (pyLower "Typescripted helpers") "typescripted" = true
    ∧ mget (techUpdate [] "Typescripted helpers") "tech_typescript" =
        mget [] "tech_typescript" + 1 := by
  refine ⟨by decide, ?_⟩
  exact (keyword_matching_is_substring "Typescripted helpers" "" []).2.2.2.1
    (by decide)

/- ### GuidelineRenderer (`generate_updated_guidelines`, lines 290-411)
The document is modelled as its list of lines: every string the code
appends ends in a newline, so the rendered text is exactly the lines
joined by newline characters with one trailing newline (`joinLines`
below).  Interpolated values (area name, timestamp, counts, commit
messages from `--oneline` entries, newline-flattened samples) occupy a
single line each. -/

/-- The flat markdown text of a line list (each appended chunk of the
Python code ends in a newline). -/
def joinLines : List String → String
  | [] => ""
  | l :: ls => l ++ "\n" ++ joinLines ls

/-- Python `str.title` (ASCII model): a letter following a non-letter is
upper-cased, every other letter lower-cased. -/
def pyTitleL : Bool → List Char → List Char
  | _, [] => []
  | prev, c :: rest =>
    (if prev then c.toLower else c.toUpper) :: pyTitleL c.isAlpha rest

def pyTitle (s : String) : String := ⟨pyTitleL false s.data⟩

/-- `round(x)` to nearest with ties to even, for the exact rational
`c * 1000 / t` (one-decimal percentage rendering `{p:.1f}`, modelling
the float formatting on the exact value). -/
def pct10 (c t : Nat) : Nat :=
  let n := c * 1000
  let q := n / t
  let r := n % t
  if 2 * r < t then q
  else if t < 2 * r then q + 1
  else if q % 2 = 0 then q else q + 1

/-- `f"{(count / total * 100) if total > 0 else 0:.1f}"`. -/
def pctFmt (c total : Nat) : String :=
  if 0 < total then
    natStr (pct10 c total / 10) ++ "." ++ natStr (pct10 c total % 10)
  else "0.0"

/-- Same with the `total_files` metric read as an integer (line 323). -/
def pctFmtInt (c : Nat) (total : Int) : String :=
  if 0 < total then pctFmt c total.toNat else "0.0"

/-- Python `max(items, key=lambda x: x[1])`: first maximal element. -/
def maxByFirst (l : List (String × Nat)) : String × Nat :=
  match l with
  | [] => ("", 0)
  | h :: t => t.foldl (fun best x => if best.2 < x.2 then x else best) h

/-- Inputs of `generate_updated_guidelines`: the area, the rendered
timestamp, the `repr` of `self.config['analysis_depth']` interpolated at
line 298, the analysis state, and the text of the previous guidelines
file if one exists on disk (`load_current_guidelines`, line 292). -/
structure GenArgs where
  area : String
  ts : String
  configRepr : String
  st : St
  prev : Option String

/-- Line 298: the Analysis Period header line. -/
def periodLine (r : String) : String :=
  "**Analysis Period:** " ++ r ++ " configuration"

/-- Lines 294-306: document header and Analysis Summary. -/
def headerLines (a : GenArgs) : List String :=
  ["# Coding Guidelines: " ++ a.area,
   "",
   "**Last Updated:** " ++ a.ts,
   "**Auto-generated by:** Guideline Refresher Skill",
   periodLine a.configRepr,
   "",
   "## Analysis Summary",
   "",
   "- **Total commits analyzed:** " ++ intStr (mget a.st.metrics "total_commits"),
   "- **Relevant PRs reviewed:** " ++ intStr (mget a.st.metrics "relevant_prs"),
   "- **Files in area:** " ++ intStr (mget a.st.metrics "total_files"),
   ""]

/-- Line 309: `tech_` metrics with the prefix stripped. -/
def techMetricsOf (m : List (String × Int)) : List (String × Int) :=
  (m.filter (fun p => prefixOfB "tech_".data p.1.data)).map
    (fun p => (pyReplace p.1 "tech_" "", p.2))

/-- Lines 308-316: Technology Focus section. -/
def techFocusLines (a : GenArgs) : List String :=
  let tm := techMetricsOf a.st.metrics
  if tm = [] then []
  else
    ["## Technology Focus", "", "Based on commit message analysis:", ""]
    ++ (sortByDesc (fun p => p.2) tm).filterMap (fun p =>
        if 3 ≤ p.2 then
          some ("- **" ++ pyTitle p.1 ++ "**: " ++ intStr p.2 ++ " commits")
        else none)
    ++ [""]

/-- Lines 318-325: File Organization section. -/
def fileOrgLines (a : GenArgs) : List String :=
  match a.st.file_types with
  | none => []
  | some ft =>
    if ft = [] then []
    else
      ["## File Organization", "", "**Primary file types:**", ""]
      ++ (ft.take 5).map (fun p =>
          "- `" ++ p.1 ++ "`: " ++ natStr p.2 ++ " files ("
            ++ pctFmtInt p.2 (mget a.st.metrics "total_files") ++ "%)")
      ++ [""]

/-- Lines 327-338: Naming Conventions section. -/
def namingLines (a : GenArgs) : List String :=
  match a.st.naming_conventions with
  | none => []
  | some nc =>
    if nc = [] then []
    else
      let totalNamed := (nc.map (fun p => p.2)).sum
      let dominant := maxByFirst nc
      ["## Naming Conventions", "", "**Observed naming patterns:**", ""]
      ++ (sortByDesc (fun p => p.2) nc).map (fun p =>
          "- **" ++ p.1 ++ "**: " ++ natStr p.2 ++ " files ("
            ++ pctFmt p.2 totalNamed ++ "%)")
      ++ ["",
          "**Recommendation:** Follow `" ++ dominant.1
            ++ "` pattern (dominant in " ++ natStr dominant.2 ++ " files)",
          ""]

/-- Line 346: `theme.replace('_', ' ').title()`. -/
def themeDisplay (t : String) : String := pyTitle (pyReplace t "_" " ")

/-- Lines 340-357: Code Review Focus Areas section. -/
def reviewLines (a : GenArgs) : List String :=
  match a.st.review_themes with
  | none => []
  | some rt =>
    if rt = [] then []
    else
      ["## Code Review Focus Areas", "",
       "Based on recurring themes in PR reviews:", ""]
      ++ (rt.take 5).flatMap (fun p =>
          ["### " ++ themeDisplay p.1 ++ " (" ++ natStr p.2 ++ " mentions)", ""]
          ++ (match agetf a.st.feedback p.1 with
              | [] => []
              | s :: _ =>
                let cleaned := pyStrip (pyReplace s "\n" " ")
                let sample :=
                  if 200 < cleaned.data.length then strTake cleaned 200 ++ "..."
                  else cleaned
                ["Example feedback: \"" ++ sample ++ "\"", ""]))

/-- Lines 367-376: re-bucketing of a refactor commit message. -/
def refactorCategory (msg : String) : String :=
  if strContains (pyLower msg) "typescript" || strContains (pyLower msg) "type"
  then "TypeScript Migration"
  else if strContains (pyLower msg) "test" then "Testing Improvements"
  else if strContains (pyLower msg) "component" || strContains (pyLower msg) "react"
  then "Component Refactoring"
  else "General Improvements"

/-- Lines 364-376: group the first 10 refactor messages by display
category (`defaultdict(list)` insertion order). -/
def groupRefactors (msgs : List String) : List (String × List String) :=
  msgs.foldl (fun acc m => afeed acc (refactorCategory m) m) []

/-- Lines 359-382: Recent Evolution section. -/
def evolutionLines (a : GenArgs) : List String :=
  if a.st.refactor_commits = [] then []
  else
    ["## Recent Evolution", "", "**Recent refactoring themes:**", ""]
    ++ (groupRefactors ((a.st.refactor_commits.take 10).map (fun rc => rc.1))).flatMap
        (fun g =>
          ("**" ++ g.1 ++ "** (" ++ natStr g.2.length ++ " commits):")
          :: (g.2.take 3).map (fun msg => "- " ++ msg) ++ [""])

/- ### Recommendations (`_generate_recommendations`, lines 413-472) -/

def rec1 : String :=
  "**Strong TypeScript usage detected.** Enforce strict type checking and avoid `any` types. Consider enabling `strictNullChecks` and `noImplicitAny` in tsconfig.json."
def rec2 : String :=
  "**TypeScript adoption in progress.** Continue migrating JavaScript files to TypeScript. Define interfaces for all props and function parameters."
def rec3 : String :=
  "**Testing is a priority.** Ensure all new code includes tests. PR reviews frequently mention testing - make it a first-class concern."
def rec4 : String :=
  "**Performance optimization is a recurring theme.** Profile before optimizing. Consider React.memo, useMemo, and code splitting for large components."
def rec5 : String :=
  "**Code organization is frequently discussed.** Follow established file structure patterns. Keep related files together and maintain consistent directory organization."
def rec6 : String :=
  "**Error handling needs attention.** Implement consistent error handling patterns. Use try-catch blocks, provide meaningful error messages, and handle edge cases."
def rec7 : String :=
  "**React patterns are dominant.** Use functional components with hooks. Avoid class components for new code. Follow React best practices for state management."

/-- `self.findings.get('review_themes', {}).get(theme, 0)`. -/
def themeCountOf (st : St) (t : String) : Nat :=
  match st.review_themes with
  | none => 0
  | some l => aget l t

/-- Lines 413-472: the recommendation rule table. -/
def recsOf (st : St) : List String :=
  (if 10 < mget st.metrics "tech_typescript" then [rec1]
   else if 5 < mget st.metrics "tech_typescript" then [rec2] else [])
  ++ (if 5 < themeCountOf st "testing" ∨ 8 < mget st.metrics "tech_testing"
      then [rec3] else [])
  ++ (if 3 < themeCountOf st "performance" then [rec4] else [])
  ++ (if 5 < themeCountOf st "code_organization" then [rec5] else [])
  ++ (if 3 < themeCountOf st "error_handling" then [rec6] else [])
  ++ (if 10 < mget st.metrics "tech_react" then [rec7] else [])

/-- Lines 384-391: Recommendations section. -/
def recommendLines (st : St) : List String :=
  let recs := recsOf st
  if recs = [] then []
  else
    ["## Recommendations", "", "Based on the analysis above:", ""]
    ++ recs.enum.map (fun p => natStr (p.1 + 1) ++ ". " ++ p.2)
    ++ [""]

/-- Lines 393-395: Code Examples placeholder section. -/
def codeExamplesLines : List String :=
  ["## Code Examples", "",
   "> **Note:** Add specific code examples from recent merged PRs that demonstrate the recommended patterns.",
   ""]

/-- Lines 402-404: first-version text when no previous document exists. -/
def firstVersionLines : List String :=
  ["## Changes from Previous Guidelines", "",
   "*This is the first version of guidelines for this area.*", ""]

/-- Lines 407-409: the trailer (the two appended pieces join into one
line, the first ending without a newline). -/
def trailerLines : List String :=
  ["---", "",
   "*These guidelines are automatically generated based on actual codebase patterns. Review and enhance with code examples and project-specific context.*"]

/- ### Change comparison (`_compare_guidelines`, lines 474-512) -/

/-- Line 479/481: the section titles matched by `^## (.+)$` over the
lines of a document. -/
def extractSections (ls : List String) : List String :=
  ls.filterMap (fun l =>
    if prefixOfB "## ".data l.data && decide (3 < l.data.length) then
      some ⟨l.data.drop 3⟩
    else none)

/-- Lexicographic comparison on character lists (Python `sorted` on
strings). -/
def lexLt : List Char → List Char → Bool
  | [], [] => false
  | [], _ :: _ => true
  | _ :: _, [] => false
  | a :: as, b :: bs => if a < b then true else if b < a then false else lexLt as bs

def insertAscStr (x : String) : List String → List String
  | [] => [x]
  | h :: t => if lexLt x.data h.data then x :: h :: t else h :: insertAscStr x t

/-- Python `sorted` over a set of strings. -/
def sortStrings (l : List String) : List String := l.foldr insertAscStr []

def digitsToNat (ds : List Char) : Nat :=
  ds.foldl (fun acc c => acc * 10 + (c.toNat - 48)) 0

def ccMarker : List Char := "Total commits analyzed:** ".data

/-- Line 506: `re.search(r'Total commits analyzed:\*\* (\d+)', old)`. -/
def scanCommitCount : List Char → Option Nat
  | [] => none
  | c :: rest =>
    if prefixOfB ccMarker (c :: rest) then
      let ds := ((c :: rest).drop ccMarker.length).takeWhile Char.isDigit
      if ds = [] then scanCommitCount rest else some (digitsToNat ds)
    else scanCommitCount rest

def oldCommitCount (old : String) : Option Nat := scanCommitCount old.data

/-- Lines 476-512: the comparison text (as lines) between the previous
document `old` and the freshly generated `newLines`. -/
def comparisonLines (old : String) (newLines : List String)
    (m : List (String × Int)) : List String :=
  let oldSecs := extractSections (splitLines old)
  let newSecs := extractSections newLines
  let added := sortStrings ((newSecs.filter (fun s => !(oldSecs.contains s))).dedup)
  let removed := sortStrings ((oldSecs.filter (fun s => !(newSecs.contains s))).dedup)
  let common := ((oldSecs.dedup).filter (fun s => newSecs.contains s)).length
  (if added ≠ [] then
    "**New sections:**" :: added.map (fun s => "- " ++ s) ++ [""] else [])
  ++ (if removed ≠ [] then
    "**Removed sections:**" :: removed.map (fun s => "- " ++ s) ++ [""] else [])
  ++ (if common ≠ 0 then
    ["**Updated sections:** " ++ natStr common
      ++ " sections refined based on recent activity", ""] else [])
  ++ (if added = [] ∧ removed = [] then
    ["Guidelines structure maintained, content updated based on recent patterns."]
    else [])
  ++ (match oldCommitCount old with
      | some oc =>
        ["", "**Data freshness:** Analyzed " ++ intStr (mget m "total_commits")
          ++ " recent commits (previous: " ++ natStr oc ++ ")"]
      | none => [])

/-- Lines 397-401: Changes section when a previous document exists. -/
def changesLines (old : String) (newLines : List String)
    (m : List (String × Int)) : List String :=
  ["## Changes from Previous Guidelines", ""]
  ++ comparisonLines old newLines m ++ [""]

/-- Lines 294-395: everything generated before the Changes section. -/
def bodyLines (a : GenArgs) : List String :=
  headerLines a ++ techFocusLines a ++ fileOrgLines a ++ namingLines a
  ++ reviewLines a ++ evolutionLines a ++ recommendLines a.st
  ++ codeExamplesLines

/-- `generate_updated_guidelines` (lines 290-411), fuel-indexed.
Line 398 tests `if current:` — Python truthiness — so a missing or
*empty* previous file takes the first-version branch.  When a nonempty
previous document exists, line 400 calls `_compare_guidelines`, whose
line 480 re-invokes `generate_updated_guidelines`; the previous file is
still on disk, so the recursive call takes the same branch.  The fuel
counts the depth of this mutual recursion the model is willing to
unfold; `none` means no amount of unfolding produces a result. -/
def genGuidelines : Nat → GenArgs → Option (List String)
  | 0, _ => none
  | Nat.succ fuel, a =>
    match a.prev with
    | none => some (bodyLines a ++ firstVersionLines ++ trailerLines)
    | some old =>
      if old = "" then some (bodyLines a ++ firstVersionLines ++ trailerLines)
      else
        match genGuidelines fuel a with
        | none => none
        | some newLines =>
          some (bodyLines a ++ changesLines old newLines a.st.metrics
            ++ trailerLines)

/-- The flat markdown text of a generated document. -/
def guidelinesText (ls : List String) : String := joinLines ls

/- ### C1/C2: the generation recursion never terminates when a previous
document exists -/

theorem genGuidelines_prev_some : ∀ (fuel : Nat) (a : GenArgs)
    (old : String), a.prev = some old → old ≠ "" →
    genGuidelines fuel a = none := by
  intro fuel
  induction fuel with
  | zero =>
    intro a old _ _
    rfl
  | succ fuel ih =>
    intro a old ha hne
    simp only [genGuidelines, ha, if_neg hne, ih a old ha hne]

/-- **C1.** Claimed: for every configuration, metrics/findings state and
every previously saved document text, `generate_updated_guidelines`
terminates and returns a markdown text.  In fact, whenever a nonempty
previous document exists on disk, line 400 calls `_compare_guidelines`,
whose line 480 calls `generate_updated_guidelines` again while the
previous file still exists: the two functions recurse forever (a
`RecursionError` at runtime).  In the fuel-indexed model: no unfolding
depth produces a document, while with no previous document one
unfolding step already returns the markdown line list.  (An existing
but empty previous file is falsy at line 398 and also terminates.) -/
theorem generation_diverges_on_previous_document (fuel : Nat)
    (area ts conf old : String) (st : St) (hne : old ≠ "") :
    genGuidelines fuel ⟨area, ts, conf, st, some old⟩ = none
    ∧ genGuidelines 1 ⟨area, ts, conf, st, none⟩ =
        some (bodyLines ⟨area, ts, conf, st, none⟩
          ++ firstVersionLines ++ trailerLines) := by
  exact ⟨genGuidelines_prev_some fuel _ old rfl hne, rfl⟩

/-- Witness for C1 at a concrete nonempty previous document. -/
theorem generation_diverges_on_previous_document_witness :
    genGuidelines 5 ⟨"app", "t", "cfg", initSt, some "x"⟩ = none :=
  (generation_diverges_on_previous_document 5 "app" "t" "cfg" "x" initSt
    (by decide)).1

/- ### The run pipeline (`run`, lines 657-698) -/

/-- External inputs of one run: the `git log` stdout (`none` = the
command failed), the parsed PR list (`none` = `gh` unavailable or its
query/parse failed), and the file-tree walk (`none` = missing area
path), plus the area and the run's timestamp. -/
structure World where
  area : String
  ts : String
  gitOut : Option String
  prs : Option (List PR)
  entries : Option (List FsEntry)

/-- Lines 672-674: the three analysis phases in order. -/
def analyzeAll (w : World) : St :=
  filePhase (prPhase (gitPhase initSt w.gitOut) w.area w.prs) w.entries

/-- Python `repr` of the built-in `self.config['analysis_depth']` dict
(lines 47-63), the value interpolated into the document header at
line 298. -/
def defaultAnalysisDepthRepr : String :=
  "\x7b\x27quick\x27: \x7b\x27pr_limit\x27: 20, \x27commit_days\x27: 30, \x27min_pattern_frequency\x27: 3\x7d, \x27standard\x27: \x7b\x27pr_limit\x27: 50, \x27commit_days\x27: 90, \x27min_pattern_frequency\x27: 5\x7d, \x27deep\x27: \x7b\x27pr_limit\x27: 100, \x27commit_days\x27: 180, \x27min_pattern_frequency\x27: 3\x7d\x7d"

/-- Artifacts of a completed run: the generated guidelines lines and
whether `save_guidelines` renamed a previous file to a backup
(lines 524-528: backup happens iff the output path already exists). -/
structure RunOut where
  guidelines : List String
  backupMade : Bool

/-- One run of the pipeline (lines 657-698): analyze, generate, then
save (backing up any existing file) and report.  `fs` is the content of
the guidelines file on disk before the run (`none` if absent); a `none`
result models the run aborting with a printed trace and exit code 1
before any artifact is written (lines 738-742). -/
def runPipe (fuel : Nat) (w : World) (fs : Option String) : Option RunOut :=
  match genGuidelines fuel
    ⟨w.area, w.ts, defaultAnalysisDepthRepr, analyzeAll w, fs⟩ with
  | none => none
  | some g => some ⟨g, fs.isSome⟩

theorem string_append_nl_ne_empty (x y : String) : x ++ "\n" ++ y ≠ "" := by
  intro h
  have hd := congrArg String.data h
  simp only [data_append, show ("\n" : String).data = ['\n'] from rfl,
    show ("" : String).data = [] from rfl, List.append_eq_nil] at hd
  exact absurd hd.1.2 (by simp)

/-- **C2.** Claimed: a second run over unchanged inputs produces
byte-identical report content up to the timestamp and renames the first
run's guidelines into a backup before writing.  In fact the second run
finds the first run's (nonempty) guidelines file on disk, so
`generate_updated_guidelines` recurses forever (C1) and the run aborts
with exit code 1 before `save_guidelines` or `generate_report` execute:
no backup is made and no report is written.  First conjunct: a first
run with no pre-existing guidelines file completes without a backup.
Second: its saved text is nonempty.  Third: the next run, started with
that text on disk, produces nothing at every unfolding depth. -/
theorem second_run_aborts_before_report (w1 w2 : World) (fuel : Nat) :
    runPipe 1 w1 none =
      some ⟨bodyLines ⟨w1.area, w1.ts, defaultAnalysisDepthRepr,
        analyzeAll w1, none⟩ ++ firstVersionLines ++ trailerLines, false⟩
    ∧ guidelinesText (bodyLines ⟨w1.area, w1.ts, defaultAnalysisDepthRepr,
        analyzeAll w1, none⟩ ++ firstVersionLines ++ trailerLines) ≠ ""
    ∧ runPipe fuel w2 (some (guidelinesText
        (bodyLines ⟨w1.area, w1.ts, defaultAnalysisDepthRepr,
          analyzeAll w1, none⟩ ++ firstVersionLines ++ trailerLines)))
      = none := by
  have hne : guidelinesText (bodyLines ⟨w1.area, w1.ts,
      defaultAnalysisDepthRepr, analyzeAll w1, none⟩ ++ firstVersionLines
      ++ trailerLines) ≠ "" :=
    string_append_nl_ne_empty _ _
  refine ⟨rfl, hne, ?_⟩
  unfold runPipe
  rw [genGuidelines_prev_some fuel ⟨w2.area, w2.ts,
    defaultAnalysisDepthRepr, analyzeAll w2, some (guidelinesText
      (bodyLines ⟨w1.area, w1.ts, defaultAnalysisDepthRepr,
        analyzeAll w1, none⟩ ++ firstVersionLines ++ trailerLines))⟩
    _ rfl hne]

/- ### C10: the header and the analysis depth -/

/-- The three depth presets selectable at the CLI (lines 718-723). -/
inductive Depth where
  | quick
  | standard
  | deep
  deriving DecidableEq, Repr

/-- Lines 677-678 of `run`: the guidelines are generated by calling
`generate_updated_guidelines()` — the selected depth is not passed to
the renderer (it only parameterizes the earlier fetch phases), and the
header interpolates the whole `analysis_depth` mapping instead. -/
def guidelinesOfRun (_depth : Depth) (a : GenArgs) (fuel : Nat) :
    Option (List String) :=
  genGuidelines fuel a

/-- **C10.** Claimed: the header states the selected analysis-depth
label (one of quick/standard/deep) for every choice of depth preset.
In fact the generated document is byte-identical for every choice of
depth (the renderer never receives it), and the header's Analysis
Period line interpolates the `repr` of the entire `analysis_depth`
configuration mapping (line 298), not a depth label — so the header
cannot state the selected depth. -/
theorem header_does_not_state_selected_depth (d d' : Depth) (a : GenArgs)
    (fuel : Nat) :
    guidelinesOfRun d a fuel = guidelinesOfRun d' a fuel
    ∧ (∀ ls, genGuidelines (fuel + 1) a = some ls →
        periodLine a.configRepr ∈ ls)
    ∧ periodLine defaultAnalysisDepthRepr ≠ "**Analysis Period:** quick configuration"
    ∧ periodLine defaultAnalysisDepthRepr ≠ "**Analysis Period:** standard configuration"
    ∧ periodLine defaultAnalysisDepthRepr ≠ "**Analysis Period:** deep configuration" := by
  refine ⟨rfl, ?_, by decide, by decide, by decide⟩
  have hmem : periodLine a.configRepr ∈
      bodyLines a ++ firstVersionLines ++ trailerLines := by
    apply List.mem_append_left
    apply List.mem_append_left
    apply List.mem_append_left
    apply List.mem_append_left
    apply List.mem_append_left
    apply List.mem_append_left
    apply List.mem_append_left
    simp [bodyLines, headerLines]
  intro ls hls
  match ha : a.prev with
  | some old =>
    by_cases hold : old = ""
    · subst hold
      have : genGuidelines (fuel + 1) a =
          some (bodyLines a ++ firstVersionLines ++ trailerLines) := by
        simp [genGuidelines, ha]
      rw [this] at hls
      obtain rfl : bodyLines a ++ firstVersionLines ++ trailerLines = ls :=
        Option.some_inj.mp hls
      exact hmem
    · rw [genGuidelines_prev_some (fuel + 1) a old ha hold] at hls
      exact absurd hls (by simp)
  | none =>
    have : genGuidelines (fuel + 1) a =
        some (bodyLines a ++ firstVersionLines ++ trailerLines) := by
      unfold genGuidelines
      rw [ha]
    rw [this] at hls
    obtain rfl : bodyLines a ++ firstVersionLines ++ trailerLines = ls :=
      Option.some_inj.mp hls
    exact hmem

/-- Witness for C10 at a concrete argument record with no previous
document. -/
theorem header_does_not_state_selected_depth_witness :
    guidelinesOfRun Depth.quick
        ⟨"app", "2026-01-01 00:00", defaultAnalysisDepthRepr, initSt, none⟩ 0
      = guidelinesOfRun Depth.deep
        ⟨"app", "2026-01-01 00:00", defaultAnalysisDepthRepr, initSt, none⟩ 0
    ∧ periodLine defaultAnalysisDepthRepr ∈
        (bodyLines ⟨"app", "2026-01-01 00:00", defaultAnalysisDepthRepr,
          initSt, none⟩ ++ firstVersionLines ++ trailerLines) := by
  refine ⟨(header_does_not_state_selected_depth Depth.quick Depth.deep
    ⟨"app", "2026-01-01 00:00", defaultAnalysisDepthRepr, initSt, none⟩ 0).1, ?_⟩
  exact (header_does_not_state_selected_depth Depth.quick Depth.deep
    ⟨"app", "2026-01-01 00:00", defaultAnalysisDepthRepr, initSt, none⟩ 0).2.1
    _ rfl

/- ### C5: section presence under a missing review tool -/

/-- The Code Review Focus Areas heading (line 342). -/
def crfa : String := "## Code Review Focus Areas"

theorem prefixOfB_of_append (p t : List Char) : prefixOfB p (p ++ t) = true :=
  (prefixOfB_iff p (p ++ t)).mpr ⟨t, rfl⟩

/-- A line whose data starts with a prefix that the heading does not
start with is not the heading. -/
theorem ne_crfa_of_pre {line : String} (p : List Char)
    (hp : prefixOfB p line.data = true)
    (hn : prefixOfB p crfa.data = false) : line ≠ crfa := by
  intro heq
  rw [heq, hn] at hp
  exact Bool.false_ne_true hp

theorem str_append_assoc (a b c : String) : a ++ b ++ c = a ++ (b ++ c) :=
  congrArg String.mk (List.append_assoc a.data b.data c.data)

/-- A line starting with a rendered number is not the heading. -/
theorem ne_crfa_natStr (n : Nat) (x : String) : natStr n ++ x ≠ crfa := by
  intro heq
  obtain ⟨d, rest, hd, hdig⟩ := natStr_head_digit n
  have hdata : (natStr n).data ++ x.data = crfa.data := by
    rw [← data_append, heq]
  have hc : crfa.data = '#' :: "# Code Review Focus Areas".data := rfl
  rw [hd, hc, List.cons_append] at hdata
  injection hdata with h1 _
  rw [h1] at hdig
  exact absurd hdig (by decide)

theorem crfa_not_mem_headerLines (a : GenArgs) : crfa ∉ headerLines a := by
  intro h
  simp only [headerLines, List.mem_cons, List.not_mem_nil, or_false] at h
  rcases h with h|h|h|h|h|h|h|h|h|h|h|h
  · exact ne_crfa_of_pre "# Coding Guidelines: ".data
      (by simp only [data_append, List.append_assoc]
          exact prefixOfB_of_append _ _) (by decide) h.symm
  · exact absurd h (by decide)
  · exact ne_crfa_of_pre "**Last Updated:** ".data
      (by simp only [data_append, List.append_assoc]
          exact prefixOfB_of_append _ _) (by decide) h.symm
  · exact absurd h (by decide)
  · exact ne_crfa_of_pre "**Analysis Period:** ".data
      (by simp only [periodLine, data_append, List.append_assoc]
          exact prefixOfB_of_append _ _) (by decide) h.symm
  · exact absurd h (by decide)
  · exact absurd h (by decide)
  · exact absurd h (by decide)
  · exact ne_crfa_of_pre "- **Total commits analyzed:** ".data
      (by simp only [data_append, List.append_assoc]
          exact prefixOfB_of_append _ _) (by decide) h.symm
  · exact ne_crfa_of_pre "- **Relevant PRs reviewed:** ".data
      (by simp only [data_append, List.append_assoc]
          exact prefixOfB_of_append _ _) (by decide) h.symm
  · exact ne_crfa_of_pre "- **Files in area:** ".data
      (by simp only [data_append, List.append_assoc]
          exact prefixOfB_of_append _ _) (by decide) h.symm
  · exact absurd h (by decide)

theorem crfa_not_mem_techFocusLines (a : GenArgs) : crfa ∉ techFocusLines a := by
  intro h
  simp only [techFocusLines] at h
  split at h
  · exact absurd h (by simp)
  · rcases List.mem_append.mp h with h1 | h1
    · rcases List.mem_append.mp h1 with h2 | h2
      · simp only [List.mem_cons, List.not_mem_nil, or_false] at h2
        rcases h2 with h2|h2|h2|h2 <;> exact absurd h2 (by decide)
      · obtain ⟨p, _, hpe⟩ := List.mem_filterMap.mp h2
        split at hpe
        · have heq : crfa = "- **" ++ pyTitle p.1 ++ "**: " ++ intStr p.2
              ++ " commits" := (Option.some_inj.mp hpe).symm
          exact ne_crfa_of_pre "- **".data
            (by simp only [data_append, List.append_assoc]
                exact prefixOfB_of_append _ _) (by decide) heq.symm
        · exact absurd hpe (by simp)
    · exact absurd h1 (by decide)

theorem crfa_not_mem_fileOrgLines (a : GenArgs) : crfa ∉ fileOrgLines a := by
  intro h
  rcases hft : a.st.file_types with _ | ft
  · simp only [fileOrgLines, hft] at h
    exact absurd h (List.not_mem_nil crfa)
  · simp only [fileOrgLines, hft] at h
    split at h
    · exact absurd h (List.not_mem_nil crfa)
    · rcases List.mem_append.mp h with h1 | h1
      · rcases List.mem_append.mp h1 with h2 | h2
        · simp only [List.mem_cons, List.not_mem_nil, or_false] at h2
          rcases h2 with h2|h2|h2|h2 <;> exact absurd h2 (by decide)
        · obtain ⟨p, _, hpe⟩ := List.mem_map.mp h2
          exact ne_crfa_of_pre "- `".data
            (by simp only [data_append, List.append_assoc]
                exact prefixOfB_of_append _ _) (by decide) hpe
      · exact absurd h1 (by decide)

theorem crfa_not_mem_namingLines (a : GenArgs) : crfa ∉ namingLines a := by
  intro h
  rcases hnc : a.st.naming_conventions with _ | nc
  · simp only [namingLines, hnc] at h
    exact absurd h (List.not_mem_nil crfa)
  · simp only [namingLines, hnc] at h
    split at h
    · exact absurd h (by simp)
    · rcases List.mem_append.mp h with h1 | h1
      · rcases List.mem_append.mp h1 with h2 | h2
        · simp only [List.mem_cons, List.not_mem_nil, or_false] at h2
          rcases h2 with h2|h2|h2|h2 <;> exact absurd h2 (by decide)
        · obtain ⟨p, _, hpe⟩ := List.mem_map.mp h2
          exact ne_crfa_of_pre "- **".data
            (by simp only [data_append, List.append_assoc]
                exact prefixOfB_of_append _ _) (by decide) hpe
      · simp only [List.mem_cons, List.not_mem_nil, or_false] at h1
        rcases h1 with h1|h1|h1
        · exact absurd h1 (by decide)
        · exact ne_crfa_of_pre "**Recommendation:** Follow `".data
            (by simp only [data_append, List.append_assoc]
                exact prefixOfB_of_append _ _) (by decide) h1.symm
        · exact absurd h1 (by decide)

theorem crfa_not_mem_evolutionLines (a : GenArgs) : crfa ∉ evolutionLines a := by
  intro h
  unfold evolutionLines at h
  split at h
  · exact absurd h (by simp)
  · rcases List.mem_append.mp h with h1 | h1
    · simp only [List.mem_cons, List.not_mem_nil, or_false] at h1
      rcases h1 with h1|h1|h1|h1 <;> exact absurd h1 (by decide)
    · obtain ⟨g, _, hmem⟩ := List.mem_flatMap.mp h1
      rcases List.mem_cons.mp hmem with h2 | h2
      · exact ne_crfa_of_pre "**".data
          (by simp only [data_append, List.append_assoc]
              exact prefixOfB_of_append _ _) (by decide) h2.symm
      · rcases List.mem_append.mp h2 with h3 | h3
        · obtain ⟨msg, _, hpe⟩ := List.mem_map.mp h3
          exact ne_crfa_of_pre "- ".data
            (by simp only [data_append, List.append_assoc]
                exact prefixOfB_of_append _ _) (by decide) hpe
        · exact absurd h3 (by decide)

theorem crfa_not_mem_recommendLines (st : St) : crfa ∉ recommendLines st := by
  intro h
  simp only [recommendLines] at h
  split at h
  · exact absurd h (by simp)
  · rcases List.mem_append.mp h with h1 | h1
    · rcases List.mem_append.mp h1 with h2 | h2
      · simp only [List.mem_cons, List.not_mem_nil, or_false] at h2
        rcases h2 with h2|h2|h2|h2 <;> exact absurd h2 (by decide)
      · obtain ⟨p, _, hpe⟩ := List.mem_map.mp h2
        have h3 : natStr (p.1 + 1) ++ (". " ++ p.2) = crfa := by
          rw [← str_append_assoc]
          exact hpe
        exact ne_crfa_natStr _ _ h3
    · exact absurd h1 (by decide)

theorem reviewLines_of_none (a : GenArgs) (h : a.st.review_themes = none) :
    reviewLines a = [] := by
  unfold reviewLines
  rw [h]

/-- Arguments `generate_updated_guidelines` receives inside `run`
(line 678): the analysis state of the world and the on-disk previous
document. -/
def mkArgs (conf : String) (w : World) (prev : Option String) : GenArgs :=
  ⟨w.area, w.ts, conf, analyzeAll w, prev⟩

/-- With the review tool unavailable, no phase ever creates the
`review_themes` finding. -/
theorem analyzeAll_review_themes_none (area ts : String) (g : Option String)
    (e : Option (List FsEntry)) :
    (analyzeAll ⟨area, ts, g, none, e⟩).review_themes = none := by
  unfold analyzeAll
  cases g <;> cases e <;> rfl

/-- **C5 (counterexample).** Claimed: with the review tool unavailable
the document still contains the File Organization section.  With the
review tool unavailable and an area directory with no files, the run
completes and produces a document with no `## File Organization`
heading line, so the claim as stated fails. -/
theorem review_unavailable_counterexample :
    (⟨"app", "t", some "", none, some []⟩ : World).prs = none
    ∧ (genGuidelines 1 (mkArgs "cfg" ⟨"app", "t", some "", none, some []⟩ none)).isSome
        = true
    ∧ "## File Organization" ∉
        (bodyLines (mkArgs "cfg" ⟨"app", "t", some "", none, some []⟩ none)
          ++ firstVersionLines ++ trailerLines) := by
  exact ⟨rfl, by decide, by decide⟩

/-- **C5 (amended).** If the review-hosting tool is unavailable, the
review phase returns with the state untouched and the run continues;
the generated document omits the `## Code Review Focus Areas` heading
entirely and always contains the `## Analysis Summary` heading; it
contains the `## File Organization` heading exactly in the runs whose
file survey recorded at least one file type. -/
theorem review_unavailable_degraded_document (w : World) (conf : String)
    (fuel : Nat) (hprs : w.prs = none) :
    (∀ s : St, prPhase s w.area none = s)
    ∧ genGuidelines (fuel + 1) (mkArgs conf w none) =
        some (bodyLines (mkArgs conf w none) ++ firstVersionLines
          ++ trailerLines)
    ∧ crfa ∉ (bodyLines (mkArgs conf w none) ++ firstVersionLines
        ++ trailerLines)
    ∧ "## Analysis Summary" ∈ bodyLines (mkArgs conf w none)
    ∧ (∀ ft, (analyzeAll w).file_types = some ft → ft ≠ [] →
        "## File Organization" ∈ bodyLines (mkArgs conf w none)) := by
  obtain ⟨area, ts, g, prs, e⟩ := w
  subst hprs
  have hrt : (analyzeAll ⟨area, ts, g, none, e⟩).review_themes = none :=
    analyzeAll_review_themes_none area ts g e
  refine ⟨fun s => rfl, rfl, ?_, ?_, ?_⟩
  · intro h
    rcases List.mem_append.mp h with h1 | h1
    · rcases List.mem_append.mp h1 with h2 | h2
      · unfold bodyLines at h2
        rcases List.mem_append.mp h2 with h3 | h3
        rcases List.mem_append.mp h3 with h4 | h4
        rcases List.mem_append.mp h4 with h5 | h5
        rcases List.mem_append.mp h5 with h6 | h6
        rcases List.mem_append.mp h6 with h7 | h7
        rcases List.mem_append.mp h7 with h8 | h8
        rcases List.mem_append.mp h8 with h9 | h9
        · exact crfa_not_mem_headerLines _ h9
        · exact crfa_not_mem_techFocusLines _ h9
        · exact crfa_not_mem_fileOrgLines _ h8
        · exact crfa_not_mem_namingLines _ h7
        · rw [reviewLines_of_none _ hrt] at h6
          exact absurd h6 (List.not_mem_nil crfa)
        · exact crfa_not_mem_evolutionLines _ h5
        · exact crfa_not_mem_recommendLines _ h4
        · exact absurd h3 (by decide)
      · exact absurd h2 (by decide)
    · exact absurd h1 (by decide)
  · unfold bodyLines
    apply List.mem_append_left
    apply List.mem_append_left
    apply List.mem_append_left
    apply List.mem_append_left
    apply List.mem_append_left
    apply List.mem_append_left
    apply List.mem_append_left
    simp [headerLines]
  · intro ft hft hne
    unfold bodyLines
    apply List.mem_append_left
    apply List.mem_append_left
    apply List.mem_append_left
    apply List.mem_append_left
    apply List.mem_append_left
    apply List.mem_append_right
    have : fileOrgLines (mkArgs conf ⟨area, ts, g, none, e⟩ none) =
        ["## File Organization", "", "**Primary file types:**", ""]
        ++ (ft.take 5).map (fun p =>
            "- `" ++ p.1 ++ "`: " ++ natStr p.2 ++ " files ("
              ++ pctFmtInt p.2 (mget (analyzeAll ⟨area, ts, g, none, e⟩).metrics
                  "total_files") ++ "%)")
        ++ [""] := by
      simp only [fileOrgLines, mkArgs, hft]
      rw [if_neg hne]
    rw [this]
    apply List.mem_append_left
    apply List.mem_append_left
    simp

/-- Witness for C5 (amended) at a concrete world with one counted
source file. -/
theorem review_unavailable_degraded_document_witness :
    crfa ∉ (bodyLines (mkArgs "cfg"
        ⟨"app", "t", some "", none, some [⟨["r"], "Button.ts", true⟩]⟩ none)
      ++ firstVersionLines ++ trailerLines)
    ∧ "## File Organization" ∈ bodyLines (mkArgs "cfg"
        ⟨"app", "t", some "", none, some [⟨["r"], "Button.ts", true⟩]⟩ none) := by
  refine ⟨(review_unavailable_degraded_document
    ⟨"app", "t", some "", none, some [⟨["r"], "Button.ts", true⟩]⟩
    "cfg" 0 rfl).2.2.1, ?_⟩
  exact (review_unavailable_degraded_document
    ⟨"app", "t", some "", none, some [⟨["r"], "Button.ts", true⟩]⟩
    "cfg" 0 rfl).2.2.2.2 [(".ts", 1)] (by decide) (by decide)

/- ### C6: the hidden-component skip -/

/-- **C6 (counterexample).** Claimed: every file counted in
`total_files`, `file_types` or `naming_conventions` has no hidden path
component.  The second `rglob` loop (lines 254-255) applies no hidden
skip: a `Button.ts` inside a `.hidden` directory is excluded from
`total_files` and `file_types` but still classified in
`naming_conventions`. -/
theorem hidden_skip_counterexample :
    isHiddenEntry ⟨["repo", "area", ".hidden"], "Button.ts", true⟩ = true
    ∧ namingCounted ⟨["repo", "area", ".hidden"], "Button.ts", true⟩ = true
    ∧ namingTally [⟨["repo", "area"], ".hidden", false⟩,
        ⟨["repo", "area", ".hidden"], "Button.ts", true⟩] = [("PascalCase", 1)]
    ∧ totalFilesOf [⟨["repo", "area"], ".hidden", false⟩,
        ⟨["repo", "area", ".hidden"], "Button.ts", true⟩] = 0
    ∧ fileTypesTally [⟨["repo", "area"], ".hidden", false⟩,
        ⟨["repo", "area", ".hidden"], "Button.ts", true⟩] = [] := by
  decide

/-- **C6 (amended).** The first enumeration (lines 234-243) counts an
entry in `total_files` exactly when it is a regular file with no path
component starting with `.`, and only such entries reach the
`file_types` counter; the naming-convention enumeration (lines 254-272)
applies no hidden-component filter — whether an entry is classified
depends only on its final name component and file kind, not on its
directory components. -/
theorem hidden_skip_amended (entries : List FsEntry) (e : FsEntry) :
    (countedInTotal e = true ↔ isHiddenEntry e = false ∧ e.isFile = true)
    ∧ (e ∈ entries.filter countedInTotal → isHiddenEntry e = false)
    ∧ (e ∈ entries.filter
        (fun x => countedInTotal x && !(pySuffix x.name == "")) →
        isHiddenEntry e = false)
    ∧ (∀ dirs', namingCounted ⟨dirs', e.name, e.isFile⟩ = namingCounted e) := by
  refine ⟨?_, ?_, ?_, fun dirs' => rfl⟩
  · simp [countedInTotal]
  · intro hmem
    have h := (List.mem_filter.mp hmem).2
    simp [countedInTotal] at h
    exact h.1
  · intro hmem
    have h := (List.mem_filter.mp hmem).2
    simp [countedInTotal] at h
    exact h.1.1

/-- Witness for C6 (amended) at a concrete visible source file. -/
theorem hidden_skip_amended_witness :
    isHiddenEntry ⟨["repo", "area"], "Button.ts", true⟩ = false
    ∧ namingCounted ⟨["other"], "Button.ts", true⟩ =
        namingCounted ⟨["repo", "area"], "Button.ts", true⟩ := by
  refine ⟨(hidden_skip_amended [⟨["repo", "area"], "Button.ts", true⟩]
    ⟨["repo", "area"], "Button.ts", true⟩).2.1 (by decide), ?_⟩
  exact (hidden_skip_amended [] ⟨["repo", "area"], "Button.ts", true⟩).2.2.2
    ["other"]

/- ### C8: file-type percentages -/

/-- Line 323: the rendered percentage value,
`(count / total_files * 100) if total_files > 0 else 0`, as an exact
rational. -/
def pctQ (c total : Nat) : ℚ :=
  if 0 < total then (c : ℚ) / total * 100 else 0

theorem ainc_valsum (k : String) : ∀ m : List (String × Nat),
    ((ainc m k).map (fun p => p.2)).sum = (m.map (fun p => p.2)).sum + 1 := by
  intro m
  induction m with
  | nil => simp [ainc]
  | cons p rest ih =>
    obtain ⟨pk, pv⟩ := p
    by_cases h : pk = k
    · simp [ainc, h]
      omega
    · simp [ainc, h, ih]
      omega

/-- The `file_types` counter totals exactly the non-hidden regular files
with a nonempty suffix. -/
theorem fileTypesTally_valsum (entries : List FsEntry) :
    ((fileTypesTally entries).map (fun p => p.2)).sum =
      (entries.filter
        (fun e => countedInTotal e && !(pySuffix e.name == ""))).length := by
  suffices h : ∀ (l : List FsEntry) (acc : List (String × Nat)),
      ((l.foldl (fun acc e =>
        if countedInTotal e && !(pySuffix e.name == "") then
          ainc acc (pySuffix e.name)
        else acc) acc).map (fun p => p.2)).sum =
      (acc.map (fun p => p.2)).sum +
        (l.filter (fun e => countedInTotal e && !(pySuffix e.name == ""))).length by
    simpa [fileTypesTally] using h entries []
  intro l
  induction l with
  | nil =>
    intro acc
    simp
  | cons e t ih =>
    intro acc
    simp only [List.foldl_cons, List.filter_cons]
    by_cases he : (countedInTotal e && !(pySuffix e.name == "")) = true
    · rw [if_pos he, ih, ainc_valsum, he]
      simp
      omega
    · rw [if_neg he, ih]
      simp [he]

theorem filter_and_length_le (entries : List FsEntry) :
    (entries.filter
      (fun e => countedInTotal e && !(pySuffix e.name == ""))).length ≤
    totalFilesOf entries := by
  unfold totalFilesOf
  have hcomm : entries.filter
      (fun e => countedInTotal e && !(pySuffix e.name == "")) =
      entries.filter (fun e => !(pySuffix e.name == "") && countedInTotal e) := by
    apply List.filter_congr
    intro e _
    exact Bool.and_comm _ _
  rw [hcomm, ← List.filter_filter]
  exact List.length_filter_le _ _

theorem sum_take_le (n : Nat) (l : List Nat) : (l.take n).sum ≤ l.sum := by
  conv_rhs => rw [← List.take_append_drop n l]
  rw [List.sum_append]
  exact Nat.le_add_right _ _

/-- The counts listed in the `file_types` finding (the most frequent
extensions) total at most `total_files`. -/
theorem listed_counts_le_total (entries : List FsEntry) (n : Nat) :
    (((sortByDesc (fun p => p.2) (fileTypesTally entries)).take n).map
      (fun p => p.2)).sum ≤ totalFilesOf entries := by
  have h1 : (((sortByDesc (fun p => p.2) (fileTypesTally entries)).take n).map
      (fun p => p.2)).sum ≤
      ((sortByDesc (fun p => p.2) (fileTypesTally entries)).map
        (fun p => p.2)).sum := by
    rw [List.map_take]
    exact sum_take_le n _
  have h2 : ((sortByDesc (fun p => p.2) (fileTypesTally entries)).map
      (fun p => p.2)).sum = ((fileTypesTally entries).map (fun p => p.2)).sum :=
    ((sortByDesc_perm (fun p : String × Nat => p.2)
      (fileTypesTally entries)).map (fun p => p.2)).sum_eq
  calc (((sortByDesc (fun p => p.2) (fileTypesTally entries)).take n).map
      (fun p => p.2)).sum
      ≤ ((fileTypesTally entries).map (fun p => p.2)).sum := h2 ▸ h1
    _ = _ := fileTypesTally_valsum entries
    _ ≤ totalFilesOf entries := filter_and_length_le entries

/-- **C8.** The percentages rendered for the listed extensions (any
initial segment of the most-frequent list, covering both the stored top
10 and the rendered top 5) sum to at most 100% of `total_files`, and a
zero `total_files` renders a percentage of 0 instead of raising a
division error (line 323). -/
theorem file_type_percentages_bounded (entries : List FsEntry) (n c : Nat) :
    (((sortByDesc (fun p => p.2) (fileTypesTally entries)).take n).map
      (fun p => pctQ p.2 (totalFilesOf entries))).sum ≤ 100
    ∧ pctQ c 0 = 0 := by
  refine ⟨?_, by simp [pctQ]⟩
  set l := (sortByDesc (fun p => p.2) (fileTypesTally entries)).take n with hl
  set T := totalFilesOf entries with hT
  by_cases hTpos : 0 < T
  · have hmap : l.map (fun p => pctQ p.2 T) =
        l.map (fun p => (p.2 : ℚ) * (100 / (T : ℚ))) := by
      simp only [pctQ, hTpos, if_true, div_mul_eq_mul_div, mul_div_assoc]
    rw [hmap, List.sum_map_mul_right]
    have hcast : (l.map (fun p => ((p.2 : Nat) : ℚ))).sum =
        (((l.map (fun p => p.2)).sum : Nat) : ℚ) := by
      rw [Nat.cast_list_sum, List.map_map]
      rfl
    rw [hcast]
    have hle : ((l.map (fun p => p.2)).sum : Nat) ≤ T :=
      listed_counts_le_total entries n
    have hleQ : (((l.map (fun p => p.2)).sum : Nat) : ℚ) ≤ (T : ℚ) :=
      Nat.cast_le.mpr hle
    have hTQ : (0 : ℚ) < (T : ℚ) := by exact_mod_cast hTpos
    calc (((l.map (fun p => p.2)).sum : Nat) : ℚ) * (100 / (T : ℚ))
        ≤ (T : ℚ) * (100 / (T : ℚ)) := by
          apply mul_le_mul_of_nonneg_right hleQ
          positivity
      _ = 100 := by field_simp
  · have hmap : ∀ x ∈ l.map (fun p => pctQ p.2 T), x = 0 := by
      intro x hx
      obtain ⟨p, _, hpe⟩ := List.mem_map.mp hx
      rw [← hpe]
      simp [pctQ, hTpos]
    rw [List.sum_eq_zero hmap]
    norm_num

/- ### C9: metric counters are non-negative and never decremented -/

theorem mono_techUpdate (m : List (String × Int)) (msg k : String) :
    mget m k ≤ mget (techUpdate m msg) k := by
  unfold techUpdate
  rw [techFold_mget]
  omega

theorem mono_gitFold (commits : List String) : ∀ (m : List (String × Int))
    (k : String),
    mget m k ≤
      mget (commits.foldl (fun acc c => techUpdate acc (commitMessage c)) m) k := by
  induction commits with
  | nil =>
    intro m k
    simp
  | cons c t ih =>
    intro m k
    simp only [List.foldl_cons]
    exact le_trans (mono_techUpdate m (commitMessage c) k) (ih _ k)

theorem techUpdate_mget_non_tech (m : List (String × Int)) (msg k : String)
    (hk : ∀ q ∈ tech_keywords, ("tech_" ++ q.1 == k) = false) :
    mget (techUpdate m msg) k = mget m k := by
  unfold techUpdate
  rw [techFold_mget]
  have hfil : tech_keywords.filter (fun q => ("tech_" ++ q.1 == k) &&
      q.2.any (fun kw => strContains (pyLower msg) kw)) = [] := by
    rw [List.filter_eq_nil_iff]
    intro q hq
    simp [hk q hq]
  rw [hfil]
  simp

theorem gitFold_mget_non_tech (commits : List String) (k : String)
    (hk : ∀ q ∈ tech_keywords, ("tech_" ++ q.1 == k) = false) :
    ∀ m, mget (commits.foldl (fun acc c => techUpdate acc (commitMessage c)) m) k
      = mget m k := by
  induction commits with
  | nil =>
    intro m
    rfl
  | cons c t ih =>
    intro m
    simp only [List.foldl_cons]
    rw [ih, techUpdate_mget_non_tech m _ k hk]

/-- A metric key that is neither `total_commits` nor a technology key is
left at 0 by the git phase. -/
theorem gitPhase_mget_other (g : Option String) (k : String)
    (hk : ∀ q ∈ tech_keywords, ("tech_" ++ q.1 == k) = false)
    (hk2 : ¬k = "total_commits") :
    mget (gitPhase initSt g).metrics k = 0 := by
  cases g with
  | none =>
    simp [gitPhase, initSt, mget_mset, hk2, mget]
  | some out =>
    simp only [gitPhase]
    rw [gitFold_mget_non_tech _ _ hk]
    simp [initSt, mget_mset, hk2, mget]
    intro h
    exact absurd h.symm hk2

/-- **C9.** Throughout a single run, every metric is a non-negative
integer and no phase decreases any metric: with `s1`, `s2`, `s3` the
states after the git, review and file phases (run in that order from
the empty counter, lines 672-674), every key's value is 0 initially,
non-decreasing across each phase, and non-negative at the end; a failed
git retrieval leaves `total_commits` at zero, and a failed review or
file phase leaves the state untouched. -/
theorem metrics_monotone_nonneg (g : Option String) (p : Option (List PR))
    (e : Option (List FsEntry)) (area : String) (k : String) :
    mget initSt.metrics k = 0
    ∧ mget initSt.metrics k ≤ mget (gitPhase initSt g).metrics k
    ∧ mget (gitPhase initSt g).metrics k ≤
        mget (prPhase (gitPhase initSt g) area p).metrics k
    ∧ mget (prPhase (gitPhase initSt g) area p).metrics k ≤
        mget (filePhase (prPhase (gitPhase initSt g) area p) e).metrics k
    ∧ 0 ≤ mget (filePhase (prPhase (gitPhase initSt g) area p) e).metrics k
    ∧ (g = none → mget (gitPhase initSt g).metrics "total_commits" = 0)
    ∧ (p = none → prPhase (gitPhase initSt g) area p = gitPhase initSt g)
    ∧ (e = none → filePhase (prPhase (gitPhase initSt g) area p) e =
        prPhase (gitPhase initSt g) area p) := by
  have h0 : mget initSt.metrics k = 0 := rfl
  have h1 : mget initSt.metrics k ≤ mget (gitPhase initSt g).metrics k := by
    rw [h0]
    cases g with
    | none =>
      simp only [gitPhase, initSt]
      rw [mget_mset]
      split <;> simp [mget]
    | some out =>
      simp only [gitPhase, initSt]
      refine le_trans ?_ (mono_gitFold _ _ _)
      rw [mget_mset]
      split
      · exact Int.ofNat_nonneg _
      · simp [mget]
  have hrp : mget (gitPhase initSt g).metrics "relevant_prs" = 0 :=
    gitPhase_mget_other g "relevant_prs" (by decide) (by decide)
  have htf : mget (gitPhase initSt g).metrics "total_files" = 0 :=
    gitPhase_mget_other g "total_files" (by decide) (by decide)
  have h2 : mget (gitPhase initSt g).metrics k ≤
      mget (prPhase (gitPhase initSt g) area p).metrics k := by
    cases p with
    | none => exact le_refl _
    | some prs =>
      simp only [prPhase]
      rw [mget_mset]
      split
      · rename_i hk
        rw [hk, hrp]
        exact Int.ofNat_nonneg _
      · exact le_refl _
  have htf2 : mget (prPhase (gitPhase initSt g) area p).metrics "total_files"
      = 0 := by
    cases p with
    | none => exact htf
    | some prs =>
      simp only [prPhase]
      rw [mget_mset]
      split
      · rename_i hk
        exact absurd hk (by decide)
      · exact htf
  have h3 : mget (prPhase (gitPhase initSt g) area p).metrics k ≤
      mget (filePhase (prPhase (gitPhase initSt g) area p) e).metrics k := by
    cases e with
    | none => exact le_refl _
    | some entries =>
      simp only [filePhase]
      rw [mget_mset]
      split
      · rename_i hk
        rw [hk, htf2]
        exact Int.ofNat_nonneg _
      · exact le_refl _
  refine ⟨h0, h1, h2, h3, ?_, ?_, ?_, ?_⟩
  · have := le_trans (le_trans (h0 ▸ h1) h2) h3
    omega
  · intro hg
    subst hg
    simp [gitPhase, initSt, mget_mset]
  · intro hp
    subst hp
    rfl
  · intro he
    subst he
    rfl

/-- Witness for C9 with every retrieval failing. -/
theorem metrics_monotone_nonneg_witness :
    mget (gitPhase initSt none).metrics "total_commits" = 0
    ∧ 0 ≤ mget (filePhase (prPhase (gitPhase initSt none) "app" none)
        none).metrics "total_commits" := by
  exact ⟨(metrics_monotone_nonneg none none none "app" "total_commits").2.2.2.2.2.1
      rfl,
    (metrics_monotone_nonneg none none none "app" "total_commits").2.2.2.2.1⟩

/-- Witness for C3 at the concrete base name `Button`. -/
theorem naming_rules_exclusive_exhaustive_witness :
    classifyStem "Button" = some Bucket.pascal
    ∧ Assigns 'B' "utton".data (classifyTotal 'B' "utton".data) := by
  exact ⟨(naming_rules_exclusive_exhaustive 'B' "utton".data).2.2.1,
    (naming_rules_exclusive_exhaustive 'B' "utton".data).2.1⟩
